import Mathlib

/-!
# RVirt multi-hart bring-up: shallow embedding and verification

This file embeds the boot sequence of `src/main.rs` (hart lottery, PMP
installation in `mstart`, orchestrator dispatch in `sstart`, per-hart guest
bring-up in `hart_entry`) as executable Lean definitions and proves or
refutes the specification claims about them.

Machine integers are modelled as `Nat` with explicit `% 2^64` where u64
overflow matters.
-/

namespace RVirt

/-- 2^64, the modulus of u64 arithmetic. -/
def U64MOD : Nat := 2 ^ 64

/-! ## Hart lottery (`HART_LOTTERY`, `mstart` lines 138-139, 180-222)

`static HART_LOTTERY: AtomicBool = AtomicBool::new(true);`
Each hart executes `HART_LOTTERY.swap(false, Ordering::SeqCst)`; the SeqCst
swap linearizes, so a boot race of `n` harts is modelled as the sequential
execution of `n` swaps in an arbitrary interleaving order (a list of hart
ids).  Each swap returns the old value and stores `false`. -/

/-- One atomic `swap(false)` on the lottery flag: returns (observed, new flag). -/
def lotterySwap (flag : Bool) : Bool × Bool := (flag, false)

/-- Run the swaps of a boot schedule (harts in linearization order) starting
from flag value `flag`; returns the list of (hartid, observed value) and the
final flag. -/
def runLottery : List Nat → Bool → List (Nat × Bool) × Bool
  | [], flag => ([], flag)
  | h :: rest, flag =>
      let (obs, flag') := lotterySwap flag
      let (tl, flagF) := runLottery rest flag'
      ((h, obs) :: tl, flagF)

/-- The hart ids that observed `true` from their swap (the ELECTED path of
`mstart`); all others observed `false` (the waiting-secondary path). -/
def electedHarts (sched : List Nat) : List Nat :=
  ((runLottery sched true).1.filter (fun p => p.2)).map (fun p => p.1)

/-! ## FDT header validation (`sstart` lines 235-239, `hart_entry` lines 312-315)

The `fdt` module is not under `src/`; the header fields that the asserts in
`main.rs` read are modelled as a structure.  `magic_valid` is modelled from
the spec: "validate magic number" against the flattened-device-tree magic
`0xd00dfeed`. -/

/-- The header fields of a flattened device tree blob read by the asserts in
`main.rs`.  Modelled from the spec: the `fdt` module (struct `Fdt` with
accessors `magic_valid`, `version`, `last_comp_version`, `total_size`) is
not under `src/`; fields follow the FDT standard named by the spec. -/
structure FdtHeader where
  magic : Nat
  version : Nat
  last_comp_version : Nat
  total_size : Nat
deriving Repr, DecidableEq

/-- Modelled from the spec: `Fdt::magic_valid` ("validate magic number"),
the FDT standard magic number. -/
def FdtHeader.magic_valid (h : FdtHeader) : Bool := h.magic == 0xd00dfeed

/-- The device-tree checks performed by `sstart` (main.rs lines 236-238):
`assert!(fdt.magic_valid()); assert!(fdt.version() >= 17 &&
fdt.last_comp_version() <= 17); assert!(fdt.total_size() < 64 * 1024);`. -/
def sstartFdtChecks (h : FdtHeader) : Bool :=
  h.magic_valid && (decide (h.version ≥ 17) && decide (h.last_comp_version ≤ 17))
    && decide (h.total_size < 64 * 1024)

/-- The device-tree checks performed by `hart_entry` (main.rs lines 313-314):
`assert!(fdt.magic_valid()); assert!(fdt.version() >= 17 &&
fdt.last_comp_version() <= 17);` — there is no total-size assert here. -/
def hartEntryFdtChecks (h : FdtHeader) : Bool :=
  h.magic_valid && (decide (h.version ≥ 17) && decide (h.last_comp_version ≤ 17))

/-! ## Physical memory protection (`mstart` lines 177-178, 186-188)

`mstart` writes `pmpaddr7 = 0xffffffff_ffffffff`, `pmpcfg0 |= 0x1f << 56`
(entry 7: NAPOT over the whole address space, R+W+X, unlocked), and on the
elected hart installs two locked NAPOT windows: entry 0 over the text
segment (R+X) and entry 1 over the shared-data segment (R+W). -/

/-- PMP config-byte flag: read permission. -/
def PMP_R : Nat := 1
/-- PMP config-byte flag: write permission. -/
def PMP_W : Nat := 2
/-- PMP config-byte flag: execute permission. -/
def PMP_X : Nat := 4
/-- PMP config-byte address-matching field set to NAPOT. -/
def PMP_NAPOT : Nat := 0x18
/-- PMP config-byte lock flag. -/
def PMP_L : Nat := 0x80

/-- One PMP entry: its configuration byte and its `pmpaddr` register. -/
structure PmpEntry where
  cfg : Nat
  addr : Nat
deriving Repr, DecidableEq

/-- Modelled from the spec: `pmp::install_pmp_napot` (module `pmp` is not
under src/) — installs a naturally-aligned power-of-two window covering
`[base, base+size)` with the given permission/lock flags, per the spec's
§4.3 and the standard RISC-V NAPOT encoding: the config byte is the flags
with the NAPOT address-matching mode, and the address register packs the
base and size as `(base >> 2) | ((size >> 3) - 1)`. -/
def install_pmp_napot (flags base size : Nat) : PmpEntry :=
  { cfg := flags ||| PMP_NAPOT, addr := (base >>> 2) ||| ((size >>> 3) - 1) }

/-- Count of trailing one bits of `a`, with fuel (addresses are below 2^64). -/
def trailingOnes : Nat → Nat → Nat
  | 0, _ => 0
  | fuel + 1, a => if a % 2 = 1 then trailingOnes fuel (a / 2) + 1 else 0

/-- Base address of the range matched by a NAPOT `pmpaddr` value. -/
def napotBase (a : Nat) : Nat := (a - (2 ^ trailingOnes 66 a - 1)) * 4

/-- Size of the range matched by a NAPOT `pmpaddr` value. -/
def napotSize (a : Nat) : Nat := 2 ^ (trailingOnes 66 a + 3)

/-- A PMP entry is active when its address-matching field is not OFF. -/
def pmpActive (e : PmpEntry) : Bool := (e.cfg &&& PMP_NAPOT) != 0

/-- Whether the (NAPOT) entry matches physical address `addr`. -/
def pmpMatches (e : PmpEntry) (addr : Nat) : Bool :=
  pmpActive e && decide (napotBase e.addr ≤ addr)
    && decide (addr < napotBase e.addr + napotSize e.addr)

/-- A physical memory access type. -/
inductive PAcc | read | write | exec
deriving Repr, DecidableEq

/-- Privilege mode relevant to PMP checks (S also stands for U/guest mode). -/
inductive PMode | M | S
deriving Repr, DecidableEq

/-- The config-byte permission bit checked for an access type. -/
def permBit : PAcc → Nat
  | .read => PMP_R
  | .write => PMP_W
  | .exec => PMP_X

/-- Whether a matching entry allows the access: S/U mode needs the permission
bit; M mode is constrained only by locked entries. -/
def pmpAllows (e : PmpEntry) (m : PMode) (a : PAcc) : Bool :=
  match m with
  | .M => if e.cfg &&& PMP_L = 0 then true else (e.cfg &&& permBit a) != 0
  | .S => (e.cfg &&& permBit a) != 0

/-- RISC-V PMP access check: the lowest-numbered matching entry decides; with
no match, M mode is allowed and S/U mode is denied (when any PMP entry is
implemented). -/
def pmpCheck : List PmpEntry → PMode → PAcc → Nat → Bool
  | [], m, _, _ => match m with | .M => true | .S => false
  | e :: rest, m, a, addr =>
      cond (pmpMatches e addr) (pmpAllows e m a) (pmpCheck rest m a addr)

/-- The PMP entries after the elected hart finishes `mstart`'s PMP setup:
entry 7 from `csrw!(pmpaddr7, 0xffffffff_ffffffff); csrs!(pmpcfg0, 0x1f << 56)`
(lines 177-178, run by every hart), entries 0 and 1 from the two
`install_pmp_napot` calls (lines 186-188), entries 2-6 untouched (reset 0). -/
def mstartPmp : List PmpEntry :=
  [ install_pmp_napot (PMP_L ||| PMP_R ||| PMP_X) 0x80000000 0x200000,
    install_pmp_napot (PMP_L ||| PMP_R ||| PMP_W) 0x80200000 0x200000,
    ⟨0, 0⟩, ⟨0, 0⟩, ⟨0, 0⟩, ⟨0, 0⟩, ⟨0, 0⟩,
    { cfg := 0x1f, addr := 0xffffffffffffffff } ]

/-! ## Machine description and the orchestrator dispatch loop (`sstart`) -/

/-- u64 wrapping subtraction (operands below 2^64). -/
def u64sub (a b : Nat) : Nat := (a + U64MOD - b % U64MOD) % U64MOD

/-- One hart as listed in the machine description (`fdt::Hart`). -/
structure Hart where
  hartid : Nat
  plic_context : Nat
deriving Repr, DecidableEq

/-- One virtio device descriptor (address and IRQ number). -/
structure VirtioDesc where
  address : Nat
  irq : Nat
deriving Repr, DecidableEq

/-- The fields of `fdt::MachineMeta` that `sstart` reads.  The `fdt` module
is not under src/; the fields are those named by the spec's
MachineDescription and used in main.rs. -/
structure MachineDesc where
  physical_memory_offset : Nat
  plic_address : Nat
  clint_address : Nat
  harts : List Hart
  virtio : List VirtioDesc
  initrd_start : Nat
  initrd_end : Nat
deriving Repr

/-- Modelled from the spec: the `pmap` module's layout constants are not
under src/.  The `sstart`/dispatch model is parameterized over them so that
no theorem depends on a guessed value; `layoutConsts` below instantiates
them from the physical-memory-layout comment of main.rs. -/
structure LayoutConsts where
  HART_SEGMENT_SIZE : Nat
  HEAP_OFFSET : Nat
  HEAP_SIZE : Nat
  DIRECT_MAP_OFFSET : Nat
deriving Repr

/-- Concrete layout constants per the memory-layout comment in main.rs
(hart g segment at `0x80000000 + g * 0x40000000`, heap at segment base +
4 MiB reaching to +64 MiB, direct map alias `0xffffffffc0000000` of
physical `0x80000000`). -/
def layoutConsts : LayoutConsts :=
  { HART_SEGMENT_SIZE := 0x40000000
    HEAP_OFFSET := 0x400000
    HEAP_SIZE := 0x3c00000
    DIRECT_MAP_OFFSET := 0xffffffff40000000 }

/-- The payload of `ipi::Reason::EnterSupervisor` (main.rs lines 289-297). -/
structure EnterSupervisor where
  a0 : Nat
  a1 : Nat
  a2 : Nat
  a3 : Nat
  sp : Nat
  satp : Nat
  mepc : Nat
deriving Repr, DecidableEq

/-- The link-time address of `hart_entry`, used only as the opaque `mepc`
value of the mailbox payload (no claim depends on its numeric value). -/
def hartEntryAddr : Nat := 0

/-- The externally visible writes `sstart` performs, in program order. -/
inductive Event
  | plicPriority (idx : Nat)
  | plicThreshold (ctx : Nat)
  | plicEnable (ctx : Nat) (mask : Nat)
  | bootPageTableInit (base : Nat)
  | copyDtb (dst : Nat) (len : Nat)
  | copyInitrd (dst : Nat) (len : Nat)
  | mailbox (hartid : Nat) (r : EnterSupervisor)
  | ipi (hartid : Nat)
deriving Repr, DecidableEq

/-- One step of the IRQ-mask loop of `sstart` (main.rs lines 268-275): for
index `(guestid-1)*4 + j`, if the index is in bounds the descriptor's IRQ is
asserted `< 32` (failure aborts: `none`) and its bit is OR-ed in; an
out-of-bounds index leaves the mask unchanged. -/
def irqMaskStep (virtio : List VirtioDesc) (guestid : Nat) (acc : Option Nat)
    (j : Nat) : Option Nat :=
  match acc with
  | none => none
  | some mask =>
      match virtio.get? ((guestid - 1) * 4 + j) with
      | some d => if d.irq < 32 then some (mask ||| (1 <<< d.irq)) else none
      | none => some mask

/-- The IRQ mask computed by `sstart` for a guest id (`none` = assert failed). -/
def irqMask (virtio : List VirtioDesc) (guestid : Nat) : Option Nat :=
  [0, 1, 2, 3].foldl (irqMaskStep virtio guestid) (some 0)

/-- The IRQ mask ignoring the assert (the pure OR of the bits of the
descriptors at the in-bounds indices `(guestid-1)*4 + j`, `j < 4`). -/
def irqMaskPure (virtio : List VirtioDesc) (guestid : Nat) : Nat :=
  [0, 1, 2, 3].foldl
    (fun mask j =>
      match virtio.get? ((guestid - 1) * 4 + j) with
      | some d => mask ||| (1 <<< d.irq)
      | none => mask) 0

/-- The `EnterSupervisor` payload `sstart` stores into a secondary hart's
mailbox slot (main.rs lines 289-297). -/
def mailboxPayload (c : LayoutConsts) (m : MachineDesc) (h : Hart)
    (guestid : Nat) : EnterSupervisor :=
  let base := m.physical_memory_offset + c.HART_SEGMENT_SIZE * guestid
  { a0 := h.hartid, a1 := base + 4096, a2 := base, a3 := guestid,
    sp := base + (4 <<< 20) + c.DIRECT_MAP_OFFSET,
    satp := (8 <<< 60) ||| (base >>> 12), mepc := hartEntryAddr }

/-- The per-secondary-hart writes of one iteration of `sstart`'s dispatch
loop (main.rs lines 264-301), in program order: PLIC threshold and enable,
boot-page-table init at the segment base, device-tree copy to base + 4096,
initrd copy to base + HEAP_OFFSET, mailbox write, then the CLINT IPI. -/
def perHartEvents (c : LayoutConsts) (m : MachineDesc) (dtbsz : Nat)
    (h : Hart) (guestid mask : Nat) : List Event :=
  let base := m.physical_memory_offset + c.HART_SEGMENT_SIZE * guestid
  [ .plicThreshold h.plic_context,
    .plicEnable h.plic_context mask,
    .bootPageTableInit base,
    .copyDtb (base + 4096) dtbsz,
    .copyInitrd (base + c.HEAP_OFFSET) (u64sub m.initrd_end m.initrd_start),
    .mailbox h.hartid (mailboxPayload c m h guestid),
    .ipi h.hartid ]

/-- The dispatch loop body over an already-filtered hart list, threading the
guest-id counter; `none` when the IRQ assert fails. -/
def dispatchGo (c : LayoutConsts) (m : MachineDesc) (dtbsz : Nat) :
    List Hart → Nat → Option (List Event)
  | [], _ => some []
  | h :: rest, guestid =>
      match irqMask m.virtio guestid with
      | none => none
      | some mask =>
          (dispatchGo c m dtbsz rest (guestid + 1)).map
            (fun evs => perHartEvents c m dtbsz h guestid mask ++ evs)

/-- `sstart`'s dispatch over `machine.harts.iter().filter(|h| h.hartid !=
hartid)` with the guest-id counter starting at 1. -/
def dispatchHarts (c : LayoutConsts) (m : MachineDesc) (dtbsz self : Nat) :
    Option (List Event) :=
  dispatchGo c m dtbsz (m.harts.filter (fun h => h.hartid != self)) 1

/-- The PLIC priority writes `for i in 1..127 { priority[i] = 1 }` performed
before the dispatch loop (main.rs lines 259-261). -/
def plicPriorityEvents : List Event :=
  (List.range 126).map (fun i => .plicPriority (i + 1))

/-- `sstart` from its asserts to the end of its dispatch loop (main.rs lines
235-301): the device-tree checks, then the two initrd asserts, then the PLIC
priority writes and the per-hart dispatch; `none` means a failed assert
halted the hart before any later write. -/
def sstartRun (c : LayoutConsts) (hdr : FdtHeader) (m : MachineDesc)
    (self : Nat) : Option (List Event) :=
  if sstartFdtChecks hdr then
    if m.initrd_end ≤ m.physical_memory_offset + c.HART_SEGMENT_SIZE then
      if u64sub m.initrd_end m.initrd_start ≤ c.HEAP_SIZE then
        (dispatchHarts c m hdr.total_size self).map
          (fun evs => plicPriorityEvents ++ evs)
      else none
    else none
  else none

/-- The hart ids targeted by IPI events, in order. -/
def ipiTargets : List Event → List Nat
  | [] => []
  | .ipi h :: rest => h :: ipiTargets rest
  | _ :: rest => ipiTargets rest

/-- The (hartid, payload) pairs of mailbox-write events, in order. -/
def mailboxWrites : List Event → List (Nat × EnterSupervisor)
  | [] => []
  | .mailbox h r :: rest => (h, r) :: mailboxWrites rest
  | _ :: rest => mailboxWrites rest

/-! ## Per-hart bring-up (`hart_entry`, main.rs lines 305-376) -/

/-- The guest device-tree staging address computed by `hart_entry` line 325:
`let guest_dtb = (max_addr | 0x1fffff) + 1;` in u64 arithmetic. -/
def guestDtbAddr (max_addr : Nat) : Nat := ((max_addr ||| 0x1fffff) + 1) % U64MOD

/-- Register read: x0 is hardwired to zero; other registers hold their value. -/
def readReg (regs : Fin 32 → Nat) (r : Fin 32) : Nat :=
  if r = 0 then 0 else regs r

/-- The final asm block of `hart_entry` (lines 342-374), instruction by
instruction: `mv a1, guest_dtb`, then `li` of zero into ra, sp, gp, tp,
t0-t2, s0, s1, a0, a2-a7, s2-s11, t3-t6 (register numbers x1-x31 except
x11 = a1), applied to the register file the asm starts from. -/
def scrubAndJump (regs : Fin 32 → Nat) (gdtb : Nat) : Fin 32 → Nat :=
  let r0 := Function.update regs 11 gdtb  -- mv a1 (x11), guest_dtb
  let r1 := Function.update r0 1 0        -- li ra, 0
  let r2 := Function.update r1 2 0        -- li sp, 0
  let r3 := Function.update r2 3 0        -- li gp, 0
  let r4 := Function.update r3 4 0        -- li tp, 0
  let r5 := Function.update r4 5 0        -- li t0, 0
  let r6 := Function.update r5 6 0        -- li t1, 0
  let r7 := Function.update r6 7 0        -- li t2, 0
  let r8 := Function.update r7 8 0        -- li s0, 0
  let r9 := Function.update r8 9 0        -- li s1, 0
  let r10 := Function.update r9 10 0      -- li a0, 0 (hartid = 0)
  let r12 := Function.update r10 12 0     -- li a2, 0
  let r13 := Function.update r12 13 0     -- li a3, 0
  let r14 := Function.update r13 14 0     -- li a4, 0
  let r15 := Function.update r14 15 0     -- li a5, 0
  let r16 := Function.update r15 16 0     -- li a6, 0
  let r17 := Function.update r16 17 0     -- li a7, 0
  let r18 := Function.update r17 18 0     -- li s2, 0
  let r19 := Function.update r18 19 0     -- li s3, 0
  let r20 := Function.update r19 20 0     -- li s4, 0
  let r21 := Function.update r20 21 0     -- li s5, 0
  let r22 := Function.update r21 22 0     -- li s6, 0
  let r23 := Function.update r22 23 0     -- li s7, 0
  let r24 := Function.update r23 24 0     -- li s8, 0
  let r25 := Function.update r24 25 0     -- li s9, 0
  let r26 := Function.update r25 26 0     -- li s10, 0
  let r27 := Function.update r26 27 0     -- li s11, 0
  let r28 := Function.update r27 28 0     -- li t3, 0
  let r29 := Function.update r28 29 0     -- li t4, 0
  let r30 := Function.update r29 30 0     -- li t5, 0
  Function.update r30 31 0                -- li t6, 0

/-- The machine state at the `sret` of `hart_entry`: the register file after
the scrub block and the program counter, which `sret` takes from `sepc`;
`hart_entry` line 326 wrote `csrw!(sepc, entry)` with `entry` from the ELF
loader, and the scrubbed a1 carries `guestDtbAddr max_addr`. -/
structure GuestEntryState where
  regs : Fin 32 → Nat
  pc : Nat

/-- The guest-visible state at the moment `hart_entry` executes `sret`. -/
def hartEntryHandoff (regs0 : Fin 32 → Nat) (entry max_addr : Nat) :
    GuestEntryState :=
  { regs := scrubAndJump regs0 (guestDtbAddr max_addr), pc := entry }

/-- The phases of `hart_entry` whose execution the SUM-bit trace records. -/
inductive HEStep
  | setStvec | setSie | fdtParse | pmapInit | elfLoad
  | computeGuestDtb | setSepc | dtbCopyMask | contextInit | scrubJump
deriving Repr, DecidableEq

/-- Operations affecting or observing `sstatus.SUM` during `hart_entry`. -/
inductive SumOp
  | csrsSum
  | csrcSum
  | phase (st : HEStep)
deriving Repr, DecidableEq

/-- `hart_entry` as a sequence of SUM-relevant operations, in program order:
the `csrs!(sstatus, STATUS_SUM)` of line 309, and each
`sum::access_user_memory` call as set-SUM / body / clear-SUM (modelled from
the spec: the `sum` module is not under src/; §9 describes it as a guard
that enables the permission on entry and disables it unconditionally on
exit). -/
def hartEntryOps : List SumOp :=
  [ .phase .setStvec, .phase .setSie,
    .csrsSum,                                -- line 309
    .phase .fdtParse, .phase .pmapInit,
    .csrsSum, .phase .elfLoad, .csrcSum,     -- access_user_memory (ELF load)
    .phase .computeGuestDtb, .phase .setSepc,
    .csrsSum, .phase .dtbCopyMask, .csrcSum, -- access_user_memory (dtb copy)
    .phase .contextInit, .phase .scrubJump ]

/-- Run the SUM operations from a SUM state, recording each phase with the
SUM value in force while it executes. -/
def runSum : List SumOp → Bool → List (HEStep × Bool)
  | [], _ => []
  | .csrsSum :: rest, _ => runSum rest true
  | .csrcSum :: rest, _ => runSum rest false
  | .phase st :: rest, s => (st, s) :: runSum rest s

/-- The (phase, SUM) trace of `hart_entry`, SUM initially clear. -/
def hartEntrySumTrace : List (HEStep × Bool) := runSum hartEntryOps false

/-! ## Theorems -/

theorem runLottery_false (sched : List Nat) :
    runLottery sched false = (sched.map (fun h => (h, false)), false) := by
  induction sched with
  | nil => rfl
  | cons h rest ih => simp [runLottery, lotterySwap, ih]

theorem filter_snd_false (rest : List Nat) :
    (rest.map (fun k => (k, false))).filter (fun p : Nat × Bool => p.2) = [] := by
  induction rest with
  | nil => rfl
  | cons k tl ih => simp [ih]

/-- C1: across all harts racing at boot, the lottery flag (initialized true
and consumed by an atomic swap to false) transitions true → false exactly
once: in any linearization order `h :: rest` of the racing swaps, exactly
the first hart observes the swap return true (the ELECTED/orchestrator
path), every other hart observes false (the waiting-secondary path), and
the flag ends false. -/
theorem hart_lottery_unique_winner (h : Nat) (rest : List Nat) :
    electedHarts (h :: rest) = [h] ∧
    (runLottery (h :: rest) true).1
      = (h, true) :: rest.map (fun k => (k, false)) ∧
    (runLottery (h :: rest) true).2 = false := by
  have hf := runLottery_false rest
  refine ⟨?_, ?_, ?_⟩ <;>
    simp [electedHarts, runLottery, lotterySwap, hf, filter_snd_false]

/-- C6 counterexample: a device-tree header with valid magic, version 17 and
last-compatible-version 17 but total size exactly 64*1024 passes
`hart_entry`'s re-parse checks (which have no size assert), although the
claim requires every bring-up parse to abort on it. -/
theorem hart_entry_accepts_64k_fdt :
    hartEntryFdtChecks
      { magic := 0xd00dfeed, version := 17, last_comp_version := 17,
        total_size := 64 * 1024 } = true ∧
    ¬ ((64 * 1024 : Nat) < 64 * 1024) := by
  constructor
  · decide
  · omega

/-- C6 amended: the orchestrator's parse in `sstart` aborts unless the magic
is valid, version ≥ 17, last-compatible-version ≤ 17 and total size < 64 KiB
(total size 64*1024 is rejected, 64*1024 - 1 accepted), while each awakened
hart's re-parse in `hart_entry` checks only magic and versions and has no
size bound. -/
theorem fdt_validation_checks (h : FdtHeader) :
    (sstartFdtChecks h = true ↔
      (h.magic = 0xd00dfeed ∧ 17 ≤ h.version ∧ h.last_comp_version ≤ 17 ∧
        h.total_size < 64 * 1024)) ∧
    (hartEntryFdtChecks h = true ↔
      (h.magic = 0xd00dfeed ∧ 17 ≤ h.version ∧ h.last_comp_version ≤ 17)) ∧
    sstartFdtChecks
      { magic := 0xd00dfeed, version := 17, last_comp_version := 17,
        total_size := 64 * 1024 } = false ∧
    sstartFdtChecks
      { magic := 0xd00dfeed, version := 17, last_comp_version := 17,
        total_size := 64 * 1024 - 1 } = true := by
  refine ⟨?_, ?_, by decide, by decide⟩ <;>
    simp [sstartFdtChecks, hartEntryFdtChecks, FdtHeader.magic_valid,
      and_assoc]

/-- C4 counterexample: the SUM permission is not enabled only during the two
guarded calls: `hart_entry` sets it with `csrs!(sstatus, STATUS_SUM)` at its
start (line 309), so it is also in force during the device-tree re-parse and
`pmap::init`, refuting the claim as stated. -/
theorem sum_enabled_outside_guarded_calls :
    ¬ (∀ p ∈ hartEntrySumTrace,
        p.2 = true → p.1 = HEStep.elfLoad ∨ p.1 = HEStep.dtbCopyMask) := by
  intro hcl
  have hmem : (HEStep.pmapInit, true) ∈ hartEntrySumTrace := by decide
  have := hcl (HEStep.pmapInit, true) hmem rfl
  rcases this with h1 | h1 <;> exact absurd h1 (by decide)

/-- C4 amended: during `hart_entry`, SUM is in force during the two guarded
calls and additionally from the `csrs!(sstatus, STATUS_SUM)` at the start of
`hart_entry` (line 309) until the ELF-load guard clears it (so also during
the device-tree re-parse and `pmap::init`); it is disabled immediately after
each guarded call returns and at every later point of the sequence. -/
theorem sum_trace_characterization (p : HEStep × Bool)
    (hmem : p ∈ hartEntrySumTrace) :
    p.2 = true ↔
      (p.1 = HEStep.fdtParse ∨ p.1 = HEStep.pmapInit ∨
        p.1 = HEStep.elfLoad ∨ p.1 = HEStep.dtbCopyMask) := by
  fin_cases hmem <;> decide

theorem sum_trace_characterization_witness :
    ((HEStep.pmapInit, true) : HEStep × Bool).2 = true ↔
      (((HEStep.pmapInit, true) : HEStep × Bool).1 = HEStep.fdtParse ∨
        ((HEStep.pmapInit, true) : HEStep × Bool).1 = HEStep.pmapInit ∨
        ((HEStep.pmapInit, true) : HEStep × Bool).1 = HEStep.elfLoad ∨
        ((HEStep.pmapInit, true) : HEStep × Bool).1 = HEStep.dtbCopyMask) :=
  sum_trace_characterization (HEStep.pmapInit, true) (by decide)

/-- C9 counterexample: the staging-address computation is u64 arithmetic, so
for `max_addr = 2^64 - 1` the value `(max_addr | 0x1fffff) + 1` wraps to 0,
which is not an address strictly above `max_addr`; the claim's "for every
value of max_addr" fails. -/
theorem guest_dtb_addr_wraps :
    guestDtbAddr (U64MOD - 1) = 0 ∧
    ¬ (U64MOD - 1 < guestDtbAddr (U64MOD - 1)) := by
  constructor
  · decide
  · decide

theorem orLow_mod (x : Nat) : (x ||| 0x1fffff) % 0x200000 = 0x1fffff := by
  have h2 : (0x200000 : Nat) = 2 ^ 21 := by norm_num
  have h1 : (0x1fffff : Nat) = 2 ^ 21 - 1 := by norm_num
  rw [h2, h1]
  apply Nat.eq_of_testBit_eq
  intro i
  rw [Nat.testBit_mod_two_pow, Nat.testBit_lor, Nat.testBit_two_pow_sub_one]
  by_cases h : i < 21 <;> simp [h]

theorem orLow_div (x : Nat) : (x ||| 0x1fffff) / 0x200000 = x / 0x200000 := by
  have h2 : (0x200000 : Nat) = 2 ^ 21 := by norm_num
  have h1 : (0x1fffff : Nat) = 2 ^ 21 - 1 := by norm_num
  rw [h2, h1, ← Nat.shiftRight_eq_div_pow, ← Nat.shiftRight_eq_div_pow]
  apply Nat.eq_of_testBit_eq
  intro i
  rw [Nat.testBit_shiftRight, Nat.testBit_shiftRight, Nat.testBit_lor,
    Nat.testBit_two_pow_sub_one]
  simp

/-- C9 amended: for every `max_addr` with `max_addr + 0x200000 < 2^64` (no
u64 wrap), `(max_addr | 0x1fffff) + 1` is the first 2 MiB-aligned address
strictly above `max_addr`: it is 2 MiB-aligned, strictly above `max_addr`,
and no smaller 2 MiB-aligned address lies strictly above `max_addr`. -/
theorem guest_dtb_addr_first_aligned (x : Nat) (hx : x + 0x200000 < U64MOD) :
    0x200000 ∣ guestDtbAddr x ∧
    x < guestDtbAddr x ∧
    ∀ y, 0x200000 ∣ y → x < y → guestDtbAddr x ≤ y := by
  have hmod := orLow_mod x
  have hdiv := orLow_div x
  have hdm := Nat.div_add_mod (x ||| 0x1fffff) 0x200000
  have hdmx := Nat.div_add_mod x 0x200000
  have hxle : 0x200000 * (x / 0x200000) ≤ x := by omega
  have hxmod : x % 0x200000 < 0x200000 := Nat.mod_lt _ (by norm_num)
  have hyval : (x ||| 0x1fffff) = 0x200000 * (x / 0x200000) + 0x1fffff := by
    omega
  have hnowrap : (x ||| 0x1fffff) + 1 < U64MOD := by omega
  have hval : guestDtbAddr x = 0x200000 * (x / 0x200000) + 0x200000 := by
    unfold guestDtbAddr
    rw [Nat.mod_eq_of_lt hnowrap]
    omega
  refine ⟨⟨x / 0x200000 + 1, by omega⟩, by omega, ?_⟩
  rintro y ⟨t, rfl⟩ hy
  have ht : x / 0x200000 < t := by
    rw [Nat.div_lt_iff_lt_mul (by norm_num : (0:Nat) < 0x200000)]
    omega
  calc guestDtbAddr x = 0x200000 * (x / 0x200000 + 1) := by omega
    _ ≤ 0x200000 * t := Nat.mul_le_mul_left _ ht

theorem guest_dtb_addr_first_aligned_witness :
    0x200000 ∣ guestDtbAddr 0x80345678 ∧
    0x80345678 < guestDtbAddr 0x80345678 ∧
    ∀ y, 0x200000 ∣ y → 0x80345678 < y → guestDtbAddr 0x80345678 ≤ y :=
  guest_dtb_addr_first_aligned 0x80345678 (by unfold U64MOD; norm_num)

theorem napotBase_text : napotBase 0x2003ffff = 0x80000000 := by decide

theorem napotSize_text : napotSize 0x2003ffff = 0x200000 := by decide

theorem napotBase_data : napotBase 0x200bffff = 0x80200000 := by decide

theorem napotSize_data : napotSize 0x200bffff = 0x200000 := by decide

theorem pmpMatches_text (addr : Nat) (h1 : 0x80000000 ≤ addr)
    (h2 : addr < 0x80200000) :
    pmpMatches (install_pmp_napot (PMP_L ||| PMP_R ||| PMP_X) 0x80000000
      0x200000) addr = true := by
  simp [pmpMatches, pmpActive, install_pmp_napot, napotBase_text,
    napotSize_text, PMP_L, PMP_R, PMP_X, PMP_NAPOT]
  omega

theorem pmpMatches_text_above (addr : Nat) (h3 : 0x80200000 ≤ addr) :
    pmpMatches (install_pmp_napot (PMP_L ||| PMP_R ||| PMP_X) 0x80000000
      0x200000) addr = false := by
  simp [pmpMatches, pmpActive, install_pmp_napot, napotBase_text,
    napotSize_text, PMP_L, PMP_R, PMP_X, PMP_NAPOT]
  omega

theorem pmpMatches_data (addr : Nat) (h3 : 0x80200000 ≤ addr)
    (h4 : addr < 0x80400000) :
    pmpMatches (install_pmp_napot (PMP_L ||| PMP_R ||| PMP_W) 0x80200000
      0x200000) addr = true := by
  simp [pmpMatches, pmpActive, install_pmp_napot, napotBase_data,
    napotSize_data, PMP_L, PMP_R, PMP_W, PMP_NAPOT]
  omega

theorem pmpCheck_text_entry (addr : Nat) (h1 : 0x80000000 ≤ addr)
    (h2 : addr < 0x80200000) (m : PMode) (a : PAcc) :
    pmpCheck mstartPmp m a addr
      = pmpAllows (install_pmp_napot (PMP_L ||| PMP_R ||| PMP_X) 0x80000000
          0x200000) m a := by
  rw [mstartPmp, pmpCheck, pmpMatches_text addr h1 h2]
  rfl

theorem pmpCheck_data_entry (addr : Nat) (h3 : 0x80200000 ≤ addr)
    (h4 : addr < 0x80400000) (m : PMode) (a : PAcc) :
    pmpCheck mstartPmp m a addr
      = pmpAllows (install_pmp_napot (PMP_L ||| PMP_R ||| PMP_W) 0x80200000
          0x200000) m a := by
  rw [mstartPmp, pmpCheck, pmpMatches_text_above addr h3]
  rw [pmpCheck, pmpMatches_data addr h3 h4]
  rfl

/-- C2 counterexample: the PMP configuration installed by `mstart` does not
forbid supervisor/guest-mode access to the hypervisor segments: entry 0
grants S-mode read and execute on the text segment and entry 1 grants
S-mode read and write on the shared-data segment, so supervisor-mode reads
of 0x80000000 and writes of 0x80200000 are permitted. -/
theorem mstart_pmp_allows_supervisor_access :
    pmpCheck mstartPmp PMode.S PAcc.read 0x80000000 = true ∧
    pmpCheck mstartPmp PMode.S PAcc.exec 0x80000000 = true ∧
    pmpCheck mstartPmp PMode.S PAcc.read 0x80200000 = true ∧
    pmpCheck mstartPmp PMode.S PAcc.write 0x80200000 = true := by
  refine ⟨by decide, by decide, by decide, by decide⟩

/-- C2 amended: after `mstart`'s PMP installation and before `mret`, the
configuration forbids writing the hypervisor text segment and executing the
shared-data segment — in supervisor/guest mode and, because the windows are
locked, even in machine mode — and exactly the two installed windows
(entries 0 and 1) carry the lock bit, so no less-privileged mode can ever
see them reconfigured or disabled; supervisor access within the granted
permissions (text read/execute, shared-data read/write) remains possible. -/
theorem mstart_pmp_protection (addr addr2 : Nat)
    (h1 : 0x80000000 ≤ addr) (h2 : addr < 0x80200000)
    (h3 : 0x80200000 ≤ addr2) (h4 : addr2 < 0x80400000) :
    pmpCheck mstartPmp PMode.S PAcc.write addr = false ∧
    pmpCheck mstartPmp PMode.M PAcc.write addr = false ∧
    pmpCheck mstartPmp PMode.S PAcc.exec addr2 = false ∧
    pmpCheck mstartPmp PMode.M PAcc.exec addr2 = false ∧
    mstartPmp.map (fun e => e.cfg &&& PMP_L)
      = [0x80, 0x80, 0, 0, 0, 0, 0, 0] := by
  refine ⟨?_, ?_, ?_, ?_, by decide⟩
  · rw [pmpCheck_text_entry addr h1 h2]; decide
  · rw [pmpCheck_text_entry addr h1 h2]; decide
  · rw [pmpCheck_data_entry addr2 h3 h4]; decide
  · rw [pmpCheck_data_entry addr2 h3 h4]; decide

theorem mstart_pmp_protection_witness :
    pmpCheck mstartPmp PMode.S PAcc.write 0x80001000 = false ∧
    pmpCheck mstartPmp PMode.M PAcc.write 0x80001000 = false ∧
    pmpCheck mstartPmp PMode.S PAcc.exec 0x80201000 = false ∧
    pmpCheck mstartPmp PMode.M PAcc.exec 0x80201000 = false ∧
    mstartPmp.map (fun e => e.cfg &&& PMP_L)
      = [0x80, 0x80, 0, 0, 0, 0, 0, 0] :=
  mstart_pmp_protection 0x80001000 0x80201000 (by norm_num) (by norm_num)
    (by norm_num) (by norm_num)

theorem scrubAndJump_eq (regs : Fin 32 → Nat) (gdtb : Nat) :
    scrubAndJump regs gdtb
      = fun r => if r = 11 then gdtb else if r = 0 then regs 0 else 0 := by
  funext r
  fin_cases r <;> simp [scrubAndJump, Function.update]

/-- C3: at the `sret` of `hart_entry`, every general-purpose register reads
zero except a1 (x11), which holds the guest device-tree address computed
from the loaded image's highest address; in particular a0 (x10, the hart id
the guest sees) reads zero, and execution resumes at the entry point the
ELF loader recorded into `sepc`. -/
theorem hart_entry_handoff_state (regs0 : Fin 32 → Nat)
    (entry max_addr : Nat) (r : Fin 32) (hr : r ≠ 11) :
    readReg (hartEntryHandoff regs0 entry max_addr).regs r = 0 ∧
    readReg (hartEntryHandoff regs0 entry max_addr).regs 11
      = guestDtbAddr max_addr ∧
    readReg (hartEntryHandoff regs0 entry max_addr).regs 10 = 0 ∧
    (hartEntryHandoff regs0 entry max_addr).pc = entry := by
  have he := scrubAndJump_eq regs0 (guestDtbAddr max_addr)
  refine ⟨?_, ?_, ?_, rfl⟩
  · by_cases h0 : r = 0 <;> simp [hartEntryHandoff, readReg, he, h0, hr]
  · simp [hartEntryHandoff, readReg, he]
  · simp [hartEntryHandoff, readReg, he]

theorem hart_entry_handoff_state_witness :
    readReg (hartEntryHandoff (fun _ => 7) 5 3).regs 10 = 0 ∧
    readReg (hartEntryHandoff (fun _ => 7) 5 3).regs 11 = guestDtbAddr 3 ∧
    readReg (hartEntryHandoff (fun _ => 7) 5 3).regs 10 = 0 ∧
    (hartEntryHandoff (fun _ => 7) 5 3).pc = 5 :=
  hart_entry_handoff_state (fun _ => 7) 5 3 10 (by decide)

theorem irqMaskStep_some (v : List VirtioDesc) (g : Nat)
    (hirq : ∀ d ∈ v, d.irq < 32) (mask j : Nat) :
    irqMaskStep v g (some mask) j
      = some (match v.get? ((g - 1) * 4 + j) with
          | some d => mask ||| (1 <<< d.irq)
          | none => mask) := by
  unfold irqMaskStep
  cases hopt : v.get? ((g - 1) * 4 + j) with
  | some d => simp [hirq d (List.get?_mem hopt)]
  | none => simp

theorem irqMask_foldl (v : List VirtioDesc) (g : Nat)
    (hirq : ∀ d ∈ v, d.irq < 32) :
    ∀ (js : List Nat) (mask : Nat),
      js.foldl (irqMaskStep v g) (some mask)
        = some (js.foldl (fun acc j =>
            match v.get? ((g - 1) * 4 + j) with
            | some d => acc ||| (1 <<< d.irq)
            | none => acc) mask) := by
  intro js
  induction js with
  | nil => intro mask; rfl
  | cons j tl ih =>
      intro mask
      simp only [List.foldl_cons]
      rw [irqMaskStep_some v g hirq]
      cases hopt : v.get? ((g - 1) * 4 + j) <;> simp [hopt, ih]

theorem irqMask_eq_pure (v : List VirtioDesc) (g : Nat)
    (hirq : ∀ d ∈ v, d.irq < 32) :
    irqMask v g = some (irqMaskPure v g) :=
  irqMask_foldl v g hirq [0, 1, 2, 3] 0

theorem mask_bits_from_descs (v : List VirtioDesc) (g : Nat) :
    ∀ (js : List Nat) (mask b : Nat),
      Nat.testBit (js.foldl (fun acc j =>
          match v.get? ((g - 1) * 4 + j) with
          | some d => acc ||| (1 <<< d.irq)
          | none => acc) mask) b = true →
      Nat.testBit mask b = true ∨
        ∃ j ∈ js, ∃ d, v.get? ((g - 1) * 4 + j) = some d ∧ d.irq = b := by
  intro js
  induction js with
  | nil => intro mask b hbit; exact Or.inl hbit
  | cons j tl ih =>
      intro mask b hbit
      simp only [List.foldl_cons] at hbit
      cases hopt : v.get? ((g - 1) * 4 + j) with
      | none =>
          rw [hopt] at hbit
          rcases ih _ _ hbit with h1 | ⟨j2, hj2, d2, hd2, hb2⟩
          · exact Or.inl h1
          · exact Or.inr ⟨j2, List.mem_cons_of_mem _ hj2, d2, hd2, hb2⟩
      | some d =>
          rw [hopt] at hbit
          rcases ih _ _ hbit with h1 | ⟨j2, hj2, d2, hd2, hb2⟩
          · rw [Nat.testBit_lor] at h1
            rcases Bool.or_eq_true_iff.mp h1 with h2 | h2
            · exact Or.inl h2
            · rw [Nat.shiftLeft_eq, one_mul, Nat.testBit_two_pow] at h2
              exact Or.inr ⟨j, List.mem_cons_self j tl, d, hopt,
                of_decide_eq_true h2⟩
          · exact Or.inr ⟨j2, List.mem_cons_of_mem _ hj2, d2, hd2, hb2⟩

theorem irq_mask_oob (v : List VirtioDesc) (g : Nat)
    (hlen : v.length ≤ (g - 1) * 4) : irqMaskPure v g = 0 := by
  have h0 : v[(g - 1) * 4]? = none := List.getElem?_eq_none (by omega)
  have h1 : v[(g - 1) * 4 + 1]? = none := List.getElem?_eq_none (by omega)
  have h2 : v[(g - 1) * 4 + 2]? = none := List.getElem?_eq_none (by omega)
  have h3 : v[(g - 1) * 4 + 3]? = none := List.getElem?_eq_none (by omega)
  simp [irqMaskPure, h0, h1, h2, h3]

/-- C10: when `sstart` builds a hart's PLIC IRQ enable mask from virtio
descriptor indices `(guestid-1)*4 + j`, `j < 4`, any index at or past the
end of the descriptor list is skipped: the loop completes without aborting
or reading out of bounds (the mask is `some _`, never `none`, whenever the
descriptors that do exist have IRQ < 32), every set bit of the mask comes
from a descriptor actually present at one of the four indices, and if all
four indices are out of range the mask is 0. -/
theorem irq_mask_skips_missing_descriptors (v : List VirtioDesc) (g : Nat)
    (hirq : ∀ d ∈ v, d.irq < 32) :
    irqMask v g = some (irqMaskPure v g) ∧
    (∀ b, Nat.testBit (irqMaskPure v g) b = true →
      ∃ j ∈ [0, 1, 2, 3], ∃ d, v.get? ((g - 1) * 4 + j) = some d ∧ d.irq = b) ∧
    (v.length ≤ (g - 1) * 4 → irqMaskPure v g = 0) := by
  refine ⟨irqMask_eq_pure v g hirq, ?_, irq_mask_oob v g⟩
  intro b hbit
  unfold irqMaskPure at hbit
  rcases mask_bits_from_descs v g [0, 1, 2, 3] 0 b hbit with h1 | h2
  · rw [Nat.zero_testBit] at h1
    exact absurd h1 (by decide)
  · exact h2

theorem irq_mask_skips_missing_descriptors_witness :
    irqMask [⟨0x10001000, 1⟩] 2 = some (irqMaskPure [⟨0x10001000, 1⟩] 2) ∧
    (∀ b, Nat.testBit (irqMaskPure [⟨0x10001000, 1⟩] 2) b = true →
      ∃ j ∈ [0, 1, 2, 3], ∃ d,
        List.get? [(⟨0x10001000, 1⟩ : VirtioDesc)] ((2 - 1) * 4 + j) = some d
          ∧ d.irq = b) ∧
    (List.length [(⟨0x10001000, 1⟩ : VirtioDesc)] ≤ (2 - 1) * 4 →
      irqMaskPure [⟨0x10001000, 1⟩] 2 = 0) :=
  irq_mask_skips_missing_descriptors [⟨0x10001000, 1⟩] 2 (by decide)

theorem dispatchGo_eq (c : LayoutConsts) (m : MachineDesc) (dtbsz : Nat)
    (hirq : ∀ d ∈ m.virtio, d.irq < 32) :
    ∀ (hs : List Hart) (g : Nat),
      dispatchGo c m dtbsz hs g
        = some ((hs.zip (List.range' g hs.length)).flatMap
            (fun p => perHartEvents c m dtbsz p.1 p.2
              (irqMaskPure m.virtio p.2))) := by
  intro hs
  induction hs with
  | nil => intro g; rfl
  | cons h tl ih =>
      intro g
      rw [dispatchGo, irqMask_eq_pure m.virtio g hirq]
      simp only [List.length_cons, List.range'_succ, List.zip_cons_cons,
        List.flatMap_cons, ih (g + 1)]
      rfl

theorem ipiTargets_append (a b : List Event) :
    ipiTargets (a ++ b) = ipiTargets a ++ ipiTargets b := by
  induction a with
  | nil => rfl
  | cons e tl ih => cases e <;> simp [ipiTargets, ih]

theorem mailboxWrites_append (a b : List Event) :
    mailboxWrites (a ++ b) = mailboxWrites a ++ mailboxWrites b := by
  induction a with
  | nil => rfl
  | cons e tl ih => cases e <;> simp [mailboxWrites, ih]

theorem ipiTargets_perHart (c : LayoutConsts) (m : MachineDesc)
    (dtbsz : Nat) (h : Hart) (g mask : Nat) :
    ipiTargets (perHartEvents c m dtbsz h g mask) = [h.hartid] := rfl

theorem mailboxWrites_perHart (c : LayoutConsts) (m : MachineDesc)
    (dtbsz : Nat) (h : Hart) (g mask : Nat) :
    mailboxWrites (perHartEvents c m dtbsz h g mask)
      = [(h.hartid, mailboxPayload c m h g)] := rfl

theorem ipiTargets_flatMap (c : LayoutConsts) (m : MachineDesc) (dtbsz : Nat) :
    ∀ (hs : List Hart) (g : Nat),
      ipiTargets ((hs.zip (List.range' g hs.length)).flatMap
          (fun p => perHartEvents c m dtbsz p.1 p.2 (irqMaskPure m.virtio p.2)))
        = hs.map (fun h => h.hartid) := by
  intro hs
  induction hs with
  | nil => intro g; rfl
  | cons h tl ih =>
      intro g
      simp only [List.length_cons, List.range'_succ, List.zip_cons_cons,
        List.flatMap_cons, ipiTargets_append, ipiTargets_perHart, ih (g + 1),
        List.map_cons]
      rfl

theorem mailboxWrites_flatMap (c : LayoutConsts) (m : MachineDesc)
    (dtbsz : Nat) :
    ∀ (hs : List Hart) (g : Nat),
      mailboxWrites ((hs.zip (List.range' g hs.length)).flatMap
          (fun p => perHartEvents c m dtbsz p.1 p.2 (irqMaskPure m.virtio p.2)))
        = (hs.zip (List.range' g hs.length)).map
            (fun p => (p.1.hartid, mailboxPayload c m p.1 p.2)) := by
  intro hs
  induction hs with
  | nil => intro g; rfl
  | cons h tl ih =>
      intro g
      simp only [List.length_cons, List.range'_succ, List.zip_cons_cons,
        List.flatMap_cons, mailboxWrites_append, mailboxWrites_perHart,
        ih (g + 1), List.map_cons]
      rfl

theorem filter_hartid_length (self : Nat) :
    ∀ hs : List Hart,
      (hs.filter (fun h => h.hartid != self)).length
        + (hs.map (fun h => h.hartid)).count self = hs.length := by
  intro hs
  induction hs with
  | nil => rfl
  | cons h tl ih =>
      by_cases hh : h.hartid = self <;>
        simp [List.filter_cons, List.count_cons, hh] <;> omega

/-- C5: `sstart` dispatches exactly one populated `EnterSupervisor` mailbox
write followed by one IPI trigger write to each hart of the machine
description whose hart id differs from its own, assigning guest ids
1, 2, 3, ... consecutively in description order skipping itself (so in
ascending hart-id order whenever the description lists harts in ascending
order), and with 4 discovered harts of which exactly one carries the
orchestrator's id, exactly 3 IPIs are sent. -/
theorem sstart_dispatch_protocol (c : LayoutConsts) (m : MachineDesc)
    (dtbsz self : Nat) (hirq : ∀ d ∈ m.virtio, d.irq < 32) :
    ∃ evs, dispatchHarts c m dtbsz self = some evs ∧
      evs = ((m.harts.filter (fun h => h.hartid != self)).zip
          (List.range' 1 (m.harts.filter (fun h => h.hartid != self)).length)).flatMap
          (fun p => perHartEvents c m dtbsz p.1 p.2 (irqMaskPure m.virtio p.2)) ∧
      mailboxWrites evs
        = ((m.harts.filter (fun h => h.hartid != self)).zip
            (List.range' 1 (m.harts.filter (fun h => h.hartid != self)).length)).map
            (fun p => (p.1.hartid, mailboxPayload c m p.1 p.2)) ∧
      ipiTargets evs
        = (m.harts.filter (fun h => h.hartid != self)).map (fun h => h.hartid) ∧
      ((m.harts.map (fun h => h.hartid)).Sorted (· < ·) →
        (ipiTargets evs).Sorted (· < ·)) ∧
      ((m.harts.map (fun h => h.hartid)).count self = 1 →
        m.harts.length = 4 → (ipiTargets evs).length = 3) := by
  refine ⟨_, dispatchGo_eq c m dtbsz hirq
      (m.harts.filter (fun h => h.hartid != self)) 1, rfl,
    mailboxWrites_flatMap c m dtbsz _ 1, ipiTargets_flatMap c m dtbsz _ 1,
    ?_, ?_⟩
  · intro hsort
    rw [ipiTargets_flatMap c m dtbsz _ 1]
    have heq : (m.harts.filter (fun h => h.hartid != self)).map
        (fun h => h.hartid)
        = (m.harts.map (fun h => h.hartid)).filter (fun x => x != self) := by
      rw [List.filter_map]
      rfl
    rw [heq]
    exact List.Pairwise.filter _ hsort
  · intro hcount hlen
    rw [ipiTargets_flatMap c m dtbsz _ 1, List.length_map]
    have := filter_hartid_length self m.harts
    omega

theorem sstart_dispatch_protocol_witness :
    ∃ evs,
      dispatchHarts layoutConsts
        { physical_memory_offset := 0x80000000, plic_address := 0xc000000,
          clint_address := 0x2000000,
          harts := [⟨0, 0⟩, ⟨1, 1⟩, ⟨2, 2⟩, ⟨3, 3⟩], virtio := [],
          initrd_start := 0, initrd_end := 0 } 100 2 = some evs ∧
      evs = (([⟨0, 0⟩, ⟨1, 1⟩, ⟨3, 3⟩] : List Hart).zip
          (List.range' 1 ([(⟨0, 0⟩ : Hart), ⟨1, 1⟩, ⟨3, 3⟩] : List Hart).length)).flatMap
          (fun p => perHartEvents layoutConsts
            { physical_memory_offset := 0x80000000, plic_address := 0xc000000,
              clint_address := 0x2000000,
              harts := [⟨0, 0⟩, ⟨1, 1⟩, ⟨2, 2⟩, ⟨3, 3⟩], virtio := [],
              initrd_start := 0, initrd_end := 0 } 100 p.1 p.2
            (irqMaskPure [] p.2)) ∧
      mailboxWrites evs
        = (([⟨0, 0⟩, ⟨1, 1⟩, ⟨3, 3⟩] : List Hart).zip
            (List.range' 1 ([(⟨0, 0⟩ : Hart), ⟨1, 1⟩, ⟨3, 3⟩] : List Hart).length)).map
            (fun p => (p.1.hartid, mailboxPayload layoutConsts
              { physical_memory_offset := 0x80000000, plic_address := 0xc000000,
                clint_address := 0x2000000,
                harts := [⟨0, 0⟩, ⟨1, 1⟩, ⟨2, 2⟩, ⟨3, 3⟩], virtio := [],
                initrd_start := 0, initrd_end := 0 } p.1 p.2)) ∧
      ipiTargets evs = [0, 1, 3] ∧
      (([0, 1, 2, 3] : List Nat).Sorted (· < ·) →
        (ipiTargets evs).Sorted (· < ·)) ∧
      (([0, 1, 2, 3] : List Nat).count 2 = 1 → (4 : Nat) = 4 →
        (ipiTargets evs).length = 3) := by
  have h := sstart_dispatch_protocol layoutConsts
    { physical_memory_offset := 0x80000000, plic_address := 0xc000000,
      clint_address := 0x2000000,
      harts := [⟨0, 0⟩, ⟨1, 1⟩, ⟨2, 2⟩, ⟨3, 3⟩], virtio := [],
      initrd_start := 0, initrd_end := 0 } 100 2 (by simp)
  simpa using h

theorem u64sub_eq (a b : Nat) (h1 : b ≤ a) (h2 : a < U64MOD) :
    u64sub a b = a - b := by
  unfold u64sub
  rw [Nat.mod_eq_of_lt (lt_of_le_of_lt h1 h2)]
  have hstep : a + U64MOD - b = (a - b) + U64MOD := by omega
  rw [hstep, Nat.add_mod_right]
  exact Nat.mod_eq_of_lt (by omega)

/-- C7: in `sstart`, an initrd whose size `initrd_end - initrd_start` equals
`HEAP_SIZE` passes the bound check (boot proceeds to dispatch), while
`HEAP_SIZE + 1` fails it, and the failing assert halts the orchestrator
before any dispatch-loop write: the run produces `none`, i.e. no mailbox
write and no IPI trigger write (nor any other dispatch event) occurs. -/
theorem sstart_initrd_bound (c : LayoutConsts) (hdr : FdtHeader)
    (m : MachineDesc) (self : Nat)
    (hfdt : sstartFdtChecks hdr = true)
    (hmem : m.initrd_end ≤ m.physical_memory_offset + c.HART_SEGMENT_SIZE)
    (hse : m.initrd_start ≤ m.initrd_end) (hend : m.initrd_end < U64MOD)
    (hirq : ∀ d ∈ m.virtio, d.irq < 32) :
    (m.initrd_end - m.initrd_start = c.HEAP_SIZE →
      ∃ evs, sstartRun c hdr m self = some evs) ∧
    (m.initrd_end - m.initrd_start = c.HEAP_SIZE + 1 →
      sstartRun c hdr m self = none) := by
  have hsub := u64sub_eq m.initrd_end m.initrd_start hse hend
  constructor
  · intro hsz
    unfold sstartRun
    rw [dispatchHarts, dispatchGo_eq c m hdr.total_size hirq _ 1]
    simp [hfdt, hmem, hsub, hsz]
  · intro hsz
    unfold sstartRun
    simp [hfdt, hmem, hsub, hsz]

theorem sstart_initrd_bound_witness :
    ((0x8bc00000 : Nat) - 0x88000000 = layoutConsts.HEAP_SIZE →
      ∃ evs, sstartRun layoutConsts
        { magic := 0xd00dfeed, version := 17, last_comp_version := 17,
          total_size := 100 }
        { physical_memory_offset := 0x80000000, plic_address := 0xc000000,
          clint_address := 0x2000000, harts := [], virtio := [],
          initrd_start := 0x88000000, initrd_end := 0x8bc00000 } 0
        = some evs) ∧
    ((0x8bc00000 : Nat) - 0x88000000 = layoutConsts.HEAP_SIZE + 1 →
      sstartRun layoutConsts
        { magic := 0xd00dfeed, version := 17, last_comp_version := 17,
          total_size := 100 }
        { physical_memory_offset := 0x80000000, plic_address := 0xc000000,
          clint_address := 0x2000000, harts := [], virtio := [],
          initrd_start := 0x88000000, initrd_end := 0x8bc00000 } 0
        = none) :=
  sstart_initrd_bound layoutConsts
    { magic := 0xd00dfeed, version := 17, last_comp_version := 17,
      total_size := 100 }
    { physical_memory_offset := 0x80000000, plic_address := 0xc000000,
      clint_address := 0x2000000, harts := [], virtio := [],
      initrd_start := 0x88000000, initrd_end := 0x8bc00000 } 0
    (by decide) (by norm_num [layoutConsts]) (by norm_num)
    (by unfold U64MOD; norm_num) (by simp)

/-- C8 counterexample: in a concrete dispatch (QEMU-virt memory base
0x80000000, orchestrator hart 0 dispatching hart 1 as guest 1, segment base
0xc0000000), the device-tree copy destination is 0xc0001000 = base + 4096,
which does not lie within the heap sub-range [0xc0400000, 0xc4000000) of the
hart's segment — refuting the claim that both copy destinations lie within
the heap sub-range. -/
theorem dtb_copy_not_into_heap :
    (dispatchHarts layoutConsts
        { physical_memory_offset := 0x80000000, plic_address := 0xc000000,
          clint_address := 0x2000000, harts := [⟨0, 0⟩, ⟨1, 1⟩],
          virtio := [], initrd_start := 0, initrd_end := 0 } 100 0).map
        (fun evs => evs.any
          (fun e => e == Event.copyDtb 0xc0001000 100)) = some true ∧
    (dispatchHarts layoutConsts
        { physical_memory_offset := 0x80000000, plic_address := 0xc000000,
          clint_address := 0x2000000, harts := [⟨0, 0⟩, ⟨1, 1⟩],
          virtio := [], initrd_start := 0, initrd_end := 0 } 100 0).map
        (fun evs => evs.all
          (fun e => match e with
            | .copyDtb dst _ =>
                decide (0xc0400000 ≤ dst ∧ dst < 0xc4000000)
            | _ => true)) = some false := by
  constructor
  · decide
  · decide

/-- C8 amended: for each dispatched secondary hart, the initrd image is
copied to segment base + HEAP_OFFSET — the start of the heap sub-range,
4 MiB above the segment base — while the device-tree blob is copied to
segment base + 4096, which lies below the heap sub-range (inside the
segment's first, stack/boot-page-table, region). -/
theorem copy_destinations (m : MachineDesc) (dtbsz : Nat) (h : Hart)
    (g mask : Nat) :
    Event.copyDtb
        (m.physical_memory_offset + layoutConsts.HART_SEGMENT_SIZE * g + 4096)
        dtbsz
      ∈ perHartEvents layoutConsts m dtbsz h g mask ∧
    Event.copyInitrd
        (m.physical_memory_offset + layoutConsts.HART_SEGMENT_SIZE * g
          + layoutConsts.HEAP_OFFSET)
        (u64sub m.initrd_end m.initrd_start)
      ∈ perHartEvents layoutConsts m dtbsz h g mask ∧
    m.physical_memory_offset + layoutConsts.HART_SEGMENT_SIZE * g + 4096
      < m.physical_memory_offset + layoutConsts.HART_SEGMENT_SIZE * g
          + layoutConsts.HEAP_OFFSET ∧
    layoutConsts.HEAP_OFFSET = 4 * 1024 * 1024 := by
  refine ⟨?_, ?_, ?_, rfl⟩
  · simp [perHartEvents]
  · simp [perHartEvents]
  · simp [layoutConsts]

end RVirt
